import Mathlib

/-!
Verification of the orchestration logic of `ratiometry_script.py` (a Fiji/Jython
batch ratiometry script). The script is a linear pipeline; all pixel-level
operations are opaque external plugin calls. We embed, from the source:

* the POSIX path helpers the script relies on (`os.path.join`, `os.path.basename`,
  `os.path.splitext`), restricted to the POSIX flavour (`os.path.normcase` is the
  identity there, which is what `fnmatch.filter` uses);
* `getFileList` (lines 35-57): `os.walk` over a directory tree plus
  `fnmatch.filter(filenames, "*" + filteringString)`;
* the `sorted(files)` call of line 239 that fixes the processing order;
* `get_series_info_from_ome_metadata` (lines 126-158), parametrised by the
  opaque Bio-Formats metadata (series count and per-series resolution counts);
* the per-series pipeline of the main loop (lines 253-352) as a step function
  producing a trace of the externally visible actions (allocations, threshold
  dialogs, threshold applications, saves, closes) plus the cross-series
  threshold state (`thresh_value` of line 234 and the scoped name
  `min_thresh_value`, which is only bound by the assignment of line 308 and is
  modelled as an `Option`: reading it while it is `none` is the Jython
  `NameError`).

Opaque pixel transforms that allocate nothing and are mentioned by no claim
(Gaussian blur, background subtraction, LUT handling, NaN background, the
divide-by-255 normalisation, the calibration bar) are elided from the trace.
-/

/-- POSIX `os.path.join(a, b)` (the two-argument form used by the script):
if `b` is absolute it wins; otherwise the parts are joined with `/` unless
`a` is empty or already ends in `/`. -/
def os_path_join (a b : String) : String :=
  if b.data.head? = some '/' then b
  else if a = "" ∨ a.data.getLast? = some '/' then a ++ b
  else a ++ "/" ++ b

/-- POSIX `os.path.basename(p)`: everything after the last `/`. -/
def os_path_basename (p : String) : String :=
  String.mk ((p.data.reverse.takeWhile (fun c => c ≠ '/')).reverse)

/-- The root part of POSIX `os.path.splitext(p)`: cut at the last `.` of the
last path component, unless every character of that component before the dot
is itself a dot (so a leading-dot name such as `.bashrc` is not split). This
is the stripping step of line 243 of the script. -/
def os_path_splitext_root (p : String) : String :=
  let cs := p.data
  let base := (cs.reverse.takeWhile (fun c => c ≠ '/')).reverse
  if base.contains '.' then
    let extLen := (base.reverse.takeWhile (fun c => c ≠ '.')).length
    let d := base.length - 1 - extLen
    if (base.take d).any (fun c => c ≠ '.') then
      String.mk (cs.take (cs.length - (base.length - d)))
    else p
  else p

/-!
### The `fnmatch` pattern language (Python 2.7 `fnmatch.translate`)

`fnmatch.filter(names, pat)` matches the whole name against the glob `pat`:
`*` becomes the regex `.*`, `?` becomes `.`, and `[...]` becomes a character
class, where a leading `!` negates, a `]` in first content position is a
literal member, `a-b` is a code-point range, and an unterminated `[` is a
literal `[`. We tokenise the pattern and match the token list; `.*` is
"some suffix of the rest matches". (An inverted range such as `[z-a]` makes
Python's `re.compile` raise; no theorem below evaluates a class pattern.)
-/

/-- Scan for the closing `]` of a character class: returns the class body and
the remainder of the pattern, or `none` when the class is unterminated. -/
def splitAtRBracket : List Char → Option (List Char × List Char)
  | [] => none
  | c :: r =>
    if c = ']' then some ([], r)
    else
      match splitAtRBracket r with
      | none => none
      | some (cls, rest) => some (c :: cls, rest)

/-- Parse the inside of a `[...]` class, following `fnmatch.translate`:
optional leading `!` (negation), then a `]` in first position is literal,
then everything up to the closing `]`. -/
def parseClass (ps : List Char) : Option (Bool × List Char × List Char) :=
  let neg : Bool := ps.head? = some '!'
  let rest1 := if neg then ps.tail else ps
  match rest1 with
  | ']' :: r2 =>
    match splitAtRBracket r2 with
    | none => none
    | some (cls, rest) => some (neg, ']' :: cls, rest)
  | _ =>
    match splitAtRBracket rest1 with
    | none => none
    | some (cls, rest) => some (neg, cls, rest)

/-- Does `c` match the body of a character class (`a-b` ranges by code point,
other characters literally)? -/
def classMatch (c : Char) : List Char → Bool
  | a :: '-' :: b :: rest => (a ≤ c ∧ c ≤ b) || classMatch c rest
  | a :: rest => a = c || classMatch c rest
  | [] => false

/-- One token of a compiled glob pattern. -/
inductive GlobTok where
  | star
  | anyChar
  | cls (neg : Bool) (body : List Char)
  | lit (c : Char)
deriving DecidableEq

/-- Fuelled pattern tokeniser (fuel makes it structurally recursive, so that
it evaluates inside the kernel; `tokenize` supplies sufficient fuel). -/
def tokenizeFuel : Nat → List Char → List GlobTok
  | 0, _ => []
  | f + 1, p =>
    match p with
    | [] => []
    | c :: ps =>
      if c = '*' then GlobTok.star :: tokenizeFuel f ps
      else if c = '?' then GlobTok.anyChar :: tokenizeFuel f ps
      else if c = '[' then
        match parseClass ps with
        | none => GlobTok.lit '[' :: tokenizeFuel f ps
        | some x => GlobTok.cls x.1 x.2.1 :: tokenizeFuel f x.2.2
      else GlobTok.lit c :: tokenizeFuel f ps

/-- Compile a glob pattern to tokens. -/
def tokenize (p : List Char) : List GlobTok :=
  tokenizeFuel (p.length + 1) p

/-- Match a token list against a whole string (list of characters). `star`
matches like the regex `.*`: the rest of the tokens must match some suffix. -/
def tokMatch : List GlobTok → List Char → Bool
  | [], s => s.isEmpty
  | GlobTok.star :: ts, s => s.tails.any (fun t => tokMatch ts t)
  | GlobTok.anyChar :: ts, s =>
    match s with
    | [] => false
    | _ :: s2 => tokMatch ts s2
  | GlobTok.cls neg body :: ts, s =>
    match s with
    | [] => false
    | c :: s2 => (classMatch c body != neg) && tokMatch ts s2
  | GlobTok.lit c :: ts, s =>
    match s with
    | [] => false
    | c2 :: s2 => (c2 = c : Bool) && tokMatch ts s2

/-- Python `fnmatch.fnmatch(name, pat)` on POSIX (where `normcase` is the
identity). -/
def fnmatch (name pat : String) : Bool :=
  tokMatch (tokenize pat.data) name.data

/-- Python `fnmatch.filter(names, pat)`. -/
def fnmatch_filter (names : List String) (pat : String) : List String :=
  names.filter (fun n => fnmatch n pat)

/-!
### The directory tree and `os.walk`

A directory is a list of file names plus a forest of named subdirectories
(a mutual inductive so that the walk is structurally recursive and evaluates
in the kernel). `os.walk` is top-down: the root's pair comes first, then each
subdirectory in order.
-/

mutual
inductive FSTree where
  | node (files : List String) (subdirs : FSForest)
inductive FSForest where
  | nil
  | cons (name : String) (tree : FSTree) (rest : FSForest)
end

/-- The file names directly inside a directory. -/
def FSTree.files : FSTree → List String
  | FSTree.node fs _ => fs

/-- A forest of named subdirectories, as a list. -/
def FSForest.toList : FSForest → List (String × FSTree)
  | FSForest.nil => []
  | FSForest.cons n t r => (n, t) :: FSForest.toList r

/-- The named subdirectories of a directory, as a list. -/
def FSTree.subdirs : FSTree → List (String × FSTree)
  | FSTree.node _ forest => forest.toList

mutual
/-- `os.walk(dirpath)` over the modelled tree: the `(dirpath, filenames)`
pairs in top-down order (`dirnames` is recoverable from the tree and unused
by the script). -/
def walk (dirpath : String) : FSTree → List (String × List String)
  | FSTree.node fs forest => (dirpath, fs) :: walkForest dirpath forest

/-- Walk every named subdirectory in order. -/
def walkForest (dirpath : String) : FSForest → List (String × List String)
  | FSForest.nil => []
  | FSForest.cons n t rest =>
    walk (os_path_join dirpath n) t ++ walkForest dirpath rest
end

/-- `getFileList(directory, filteringString)` (lines 35-57): for every walked
directory, keep the file names matching the glob `"*" + filteringString` and
join them onto the directory path. -/
def getFileList (dirpath : String) (tree : FSTree) (filteringString : String) :
    List String :=
  (walk dirpath tree).flatMap
    (fun dp => (fnmatch_filter dp.2 ("*" ++ filteringString)).map
      (fun f => os_path_join dp.1 f))

/-- The `sorted(files)` of line 239: the processing order of the main loop. -/
def sorted_files (files : List String) : List String :=
  files.mergeSort (fun a b => a ≤ b)

/-- The order in which the main loop visits files (line 239). -/
def script_file_order (dirpath : String) (tree : FSTree) (filteringString : String) :
    List String :=
  sorted_files (getFileList dirpath tree filteringString)

/-- `DirPath t names sub`: starting at `t` and descending through the named
subdirectories `names` (in order) reaches the directory `sub`. Captures
"a file at any recursion depth under the root". -/
inductive DirPath : FSTree → List String → FSTree → Prop where
  | refl (t : FSTree) : DirPath t [] t
  | step {fs : List String} {forest : FSForest} {n : String} {t1 sub : FSTree}
      {names : List String} :
      (n, t1) ∈ (FSTree.node fs forest).subdirs →
      DirPath t1 names sub →
      DirPath (FSTree.node fs forest) (n :: names) sub

/-- Join a chain of directory names onto a root path. -/
def joinAll (root : String) (names : List String) : String :=
  names.foldl os_path_join root

/-!
### Series Inspector (lines 126-158)

`get_series_info_from_ome_metadata` asks Bio-Formats for the series count and
builds the absolute series index table: series 0 maps to offset 0, and each
later series adds the previous series' resolution count to a running total.
The metadata reader is opaque; it is modelled by the two values it supplies,
the series count and the `resolutionCount` function.
-/

/-- The loop of lines 146-154, with the mutable pair
`(resolution_count, series_index)` threaded as a fold accumulator. -/
def series_index_fold (resolutionCount : Nat → Int) (series_count : Nat) :
    Int × List Int :=
  (List.range series_count).foldl
    (fun acc i =>
      if i = 0 then ((0 : Int), acc.2 ++ [(0 : Int)])
      else
        let rc := acc.1 + resolutionCount (i - 1)
        (rc, acc.2 ++ [rc]))
    (0, [])

/-- `get_series_info_from_ome_metadata(path)`: the series count together with
the list of absolute series indices. -/
def get_series_info_from_ome_metadata (series_count : Nat)
    (resolutionCount : Nat → Int) : Nat × List Int :=
  (series_count, (series_index_fold resolutionCount series_count).2)

/-!
### The per-series pipeline and the threshold state (lines 212-352)

The script-parameter dialog of line 6 restricts `thresh_method` to exactly
three strings, modelled as an enumeration.
-/

/-- The three choices of the `thresh_method` script parameter (line 6):
`Fully automatic`, `Manual once and apply to all`, `Fully manual`. -/
inductive ThreshMethod where
  | fullyAutomatic
  | manualOnceApplyAll
  | fullyManual
deriving DecidableEq

/-- The script's configuration surface, as far as the main loop uses it. -/
structure Config where
  out_dir : String
  seg_chnl : Nat
  do_stackreg : Bool
  thresh_method : ThreshMethod

/-- The cross-series threshold state: `thresh_value` is the global of
line 234 (initially `0`), and `min_thresh_value` is the global name that is
only ever bound by the assignment of line 308 — `none` models "never
assigned", and reading it while `none` is the Jython `NameError`. Threshold
values are ImageJ doubles, embedded as rationals (the script only stores
them and compares `thresh_value` with `0`). -/
structure ThreshState where
  thresh_value : Rat
  min_thresh_value : Option Rat
deriving DecidableEq

/-- The state at line 234, before any series is processed. -/
def initState : ThreshState :=
  { thresh_value := 0, min_thresh_value := none }

/-- The externally visible actions of one run, in program order. Allocation
events are the stack-producing calls of one series iteration (the Bio-Formats
open, the three `Duplicator` copies, the FeatureJ Laplacian output and the two
`create`-mode `ImageCalculator` results); `close` events are the six explicit
`close()` calls of lines 347-352. -/
inductive Event where
  | openSeries (file : String) (series_idx : Int)
  | stackReg
  | allocC1
  | allocC2
  | allocSegment (chnl : Nat)
  | allocLaplace
  | autoThreshold (method : String)
  | convertToMaskMoments
  | promptUser (min_t max_t : Rat)
  | setThreshold (min_t max_t : Rat)
  | convertToMask
  | allocResultDiv
  | allocResultMul
  | saveTiff (path : String)
  | makeDirs (path : String)
  | closeImp
  | closeResult
  | closeC1
  | closeC2
  | closeLaplace
  | closeSegment
  | nameError (name : String)
deriving DecidableEq

/-- The output path of lines 258-264: `basename` is re-assigned inside the
series loop to the UNSTRIPPED file name (`os.path.basename(file)`, line 258;
the `splitext` of line 243 is discarded), then suffixed with
`_ratio_chnlaligned.tif` or `_ratio.tif` and joined under `out_dir`. -/
def out_ratio_path (out_dir file : String) (do_stackreg : Bool) : String :=
  let basename := os_path_basename file
  if do_stackreg then os_path_join out_dir (basename ++ "_ratio_chnlaligned.tif")
  else os_path_join out_dir (basename ++ "_ratio.tif")

/-- `check_folder(path)` (lines 189-198): emit a directory-creation action
when the path does not exist. The helper is defined in the source but never
called from the main loop. -/
def check_folder (path_exists : Bool) (path : String) : List Event :=
  if path_exists then [] else [Event.makeDirs path]

/-- Events of the series open and optional StackReg alignment
(lines 256-262). -/
def openTrace (cfg : Config) (file : String) (series_idx : Int) : List Event :=
  [Event.openSeries file series_idx] ++
    (if cfg.do_stackreg then [Event.stackReg] else [])

/-- Events of the stack duplications and the Laplacian (lines 272-290). -/
def allocTrace (cfg : Config) : List Event :=
  [Event.allocC1, Event.allocC2, Event.allocSegment cfg.seg_chnl,
   Event.allocLaplace]

/-- Events from the two `ImageCalculator` results through the save and the
six closes (lines 329-352). The first (`Divide create`) result is orphaned by
the re-assignment of line 330 and has no close event. -/
def tailTrace (cfg : Config) (file : String) : List Event :=
  [Event.allocResultDiv, Event.allocResultMul,
   Event.saveTiff (out_ratio_path cfg.out_dir file cfg.do_stackreg),
   Event.closeImp, Event.closeResult, Event.closeC1, Event.closeC2,
   Event.closeLaplace, Event.closeSegment]

/-- The threshold branch of lines 296-310: fully-automatic mode runs the
`Moments` auto-threshold and `Convert to Mask`; otherwise, when
`thresh_value == 0`, the blocking dialog fires and captures the confirmed
`(min, max)` pair (`thresh_value` gets the max of line 307, `min_thresh_value`
the min of line 308); otherwise nothing happens. -/
def threshBranch (cfg : Config) (human : Nat → Rat × Rat)
    (prompts_so_far : Nat) (st : ThreshState) : List Event × ThreshState :=
  if cfg.thresh_method = ThreshMethod.fullyAutomatic then
    ([Event.autoThreshold "Moments", Event.convertToMaskMoments], st)
  else if st.thresh_value = 0 then
    let mnmx := human prompts_so_far
    ([Event.promptUser mnmx.1 mnmx.2],
     { thresh_value := mnmx.2, min_thresh_value := some mnmx.1 })
  else ([], st)

/-- One series iteration of the main loop (lines 253-352). `human` is the
blocking threshold dialog: invocation number `k` (counted over the whole run)
returns the confirmed `(min, max)` pair. The returned state is `none` when
the iteration raises (the `NameError` of line 312 when `min_thresh_value`
was never assigned), in which case the closes of lines 347-352 never run. -/
def processSeries (cfg : Config) (file : String) (series_idx : Int)
    (human : Nat → Rat × Rat) (prompts_so_far : Nat) (st : ThreshState) :
    List Event × Option ThreshState :=
  let branch := threshBranch cfg human prompts_so_far st
  let evs := openTrace cfg file series_idx ++ allocTrace cfg ++ branch.1
  -- line 312: IJ.setThreshold(imp_laplace, min_thresh_value, thresh_value)
  match branch.2.min_thresh_value with
  | none => (evs ++ [Event.nameError "min_thresh_value"], none)
  | some mn =>
    -- lines 316-317: fully-manual mode resets thresh_value to 0
    let st2 :=
      if cfg.thresh_method = ThreshMethod.fullyManual then
        { branch.2 with thresh_value := 0 }
      else branch.2
    (evs ++ [Event.setThreshold mn branch.2.thresh_value, Event.convertToMask]
         ++ tailTrace cfg file,
     some st2)

/-- Number of threshold dialogs in a trace. -/
def countPrompts (tr : List Event) : Nat :=
  tr.countP (fun e => match e with | Event.promptUser _ _ => true | _ => false)

/-- Number of series opened in a trace. -/
def countOpens (tr : List Event) : Nat :=
  tr.countP (fun e => match e with | Event.openSeries _ _ => true | _ => false)

/-- Number of stack allocations in a trace. -/
def countAllocs (tr : List Event) : Nat :=
  tr.countP (fun e =>
    match e with
    | Event.openSeries _ _ => true
    | Event.allocC1 => true
    | Event.allocC2 => true
    | Event.allocSegment _ => true
    | Event.allocLaplace => true
    | Event.allocResultDiv => true
    | Event.allocResultMul => true
    | _ => false)

/-- Number of explicit stack closes in a trace. -/
def countCloses (tr : List Event) : Nat :=
  tr.countP (fun e =>
    match e with
    | Event.closeImp => true
    | Event.closeResult => true
    | Event.closeC1 => true
    | Event.closeC2 => true
    | Event.closeLaplace => true
    | Event.closeSegment => true
    | _ => false)

/-- Number of directory-creation actions in a trace. -/
def countMakeDirs (tr : List Event) : Nat :=
  tr.countP (fun e => match e with | Event.makeDirs _ => true | _ => false)

/-- Number of saves in a trace. -/
def countSaves (tr : List Event) : Nat :=
  tr.countP (fun e => match e with | Event.saveTiff _ => true | _ => false)

/-- Number of occurrences of one event in a trace. -/
def countEvent (e : Event) (tr : List Event) : Nat :=
  tr.countP (fun x => x = e)

/-- The `(min, max)` pairs of the threshold applications (line 312), in
order. -/
def setThresholdEvents (tr : List Event) : List (Rat × Rat) :=
  tr.filterMap (fun e =>
    match e with
    | Event.setThreshold a b => some (a, b)
    | _ => none)

/-- What the run needs to know about one input file: its path and the opaque
Bio-Formats metadata (series count, per-series resolution counts). -/
structure FileMeta where
  path : String
  series_count : Nat
  resolutionCount : Nat → Int

/-- Total number of series over a run's files. -/
def totalSeries (files : List FileMeta) : Nat :=
  (files.map (fun fm => fm.series_count)).sum

/-- One step of the series loop (lines 253-352): a raised iteration halts the
whole run (the accumulated state becomes and stays `none`, and no further
events happen). The dialog counter passed on is the number of prompts in the
trace so far. -/
def seriesStep (cfg : Config) (human : Nat → Rat × Rat) (path : String)
    (idx : List Int) (acc : List Event × Option ThreshState) (series : Nat) :
    List Event × Option ThreshState :=
  match acc with
  | (tr, none) => (tr, none)
  | (tr, some st) =>
    let r := processSeries cfg path (idx.getD series 0) human (countPrompts tr) st
    (tr ++ r.1, r.2)

/-- One file of the main loop (lines 239-352): query the metadata, then
process each series. Logging, the padding width and the dead stripped
basename of line 243 are elided. -/
def runFile (cfg : Config) (human : Nat → Rat × Rat)
    (acc : List Event × Option ThreshState) (fm : FileMeta) :
    List Event × Option ThreshState :=
  (List.range
      (get_series_info_from_ome_metadata fm.series_count fm.resolutionCount).1).foldl
    (seriesStep cfg human fm.path
      (get_series_info_from_ome_metadata fm.series_count fm.resolutionCount).2)
    acc

/-- The whole run over an ordered list of files, starting from the unset
threshold state of line 234. -/
def runScript (cfg : Config) (human : Nat → Rat × Rat)
    (files : List FileMeta) : List Event × Option ThreshState :=
  files.foldl (runFile cfg human) ([], some initState)

/-!
### Concrete fixtures used by witnesses and counterexamples
-/

/-- Automatic-threshold configuration. -/
def cfgAuto : Config :=
  { out_dir := "/out", seg_chnl := 1, do_stackreg := false,
    thresh_method := ThreshMethod.fullyAutomatic }

/-- Manual-once configuration. -/
def cfgOnce : Config :=
  { out_dir := "/out", seg_chnl := 1, do_stackreg := false,
    thresh_method := ThreshMethod.manualOnceApplyAll }

/-- Fully-manual configuration. -/
def cfgManual : Config :=
  { out_dir := "/out", seg_chnl := 1, do_stackreg := false,
    thresh_method := ThreshMethod.fullyManual }

/-- A dialog whose confirmed pair is always `(1, 2)`. -/
def humanConst : Nat → Rat × Rat := fun _ => (1, 2)

/-- A dialog whose confirmed pair is always `(0, 0)` (max threshold `0`). -/
def humanZero : Nat → Rat × Rat := fun _ => (0, 0)

/-- A sample input file with two series, one resolution level each. -/
def fmSample : FileMeta :=
  { path := "/data/sample.nd2", series_count := 2, resolutionCount := fun _ => 1 }

/-- A one-directory tree holding a file name that ends in `d2` preceded by
an arbitrary character, used against the glob suffix `?d2`. -/
def treeQ : FSTree := FSTree.node ["xd2"] FSForest.nil

/-- A small nested tree with `nd2` files at two depths. -/
def sampleTree : FSTree :=
  FSTree.node ["a.nd2", "notes.txt"]
    (FSForest.cons "sub" (FSTree.node ["b.nd2"] FSForest.nil) FSForest.nil)

/-!
### Helper lemmas: counters over trace pieces
-/

theorem countPrompts_append (a b : List Event) :
    countPrompts (a ++ b) = countPrompts a + countPrompts b := by
  simp [countPrompts]

theorem countOpens_append (a b : List Event) :
    countOpens (a ++ b) = countOpens a + countOpens b := by
  simp [countOpens]

theorem countSaves_append (a b : List Event) :
    countSaves (a ++ b) = countSaves a + countSaves b := by
  simp [countSaves]

theorem countCloses_append (a b : List Event) :
    countCloses (a ++ b) = countCloses a + countCloses b := by
  simp [countCloses]

theorem countMakeDirs_append (a b : List Event) :
    countMakeDirs (a ++ b) = countMakeDirs a + countMakeDirs b := by
  simp [countMakeDirs]

theorem setThresholdEvents_append (a b : List Event) :
    setThresholdEvents (a ++ b) = setThresholdEvents a ++ setThresholdEvents b := by
  simp [setThresholdEvents]

theorem countPrompts_openTrace (cfg : Config) (f : String) (i : Int) :
    countPrompts (openTrace cfg f i) = 0 := by
  rcases cfg with ⟨o, sc, ds, tm⟩
  cases ds <;> rfl

theorem countOpens_openTrace (cfg : Config) (f : String) (i : Int) :
    countOpens (openTrace cfg f i) = 1 := by
  rcases cfg with ⟨o, sc, ds, tm⟩
  cases ds <;> rfl

theorem countSaves_openTrace (cfg : Config) (f : String) (i : Int) :
    countSaves (openTrace cfg f i) = 0 := by
  rcases cfg with ⟨o, sc, ds, tm⟩
  cases ds <;> rfl

theorem countCloses_openTrace (cfg : Config) (f : String) (i : Int) :
    countCloses (openTrace cfg f i) = 0 := by
  rcases cfg with ⟨o, sc, ds, tm⟩
  cases ds <;> rfl

theorem countMakeDirs_openTrace (cfg : Config) (f : String) (i : Int) :
    countMakeDirs (openTrace cfg f i) = 0 := by
  rcases cfg with ⟨o, sc, ds, tm⟩
  cases ds <;> rfl

theorem setThresholdEvents_openTrace (cfg : Config) (f : String) (i : Int) :
    setThresholdEvents (openTrace cfg f i) = [] := by
  rcases cfg with ⟨o, sc, ds, tm⟩
  cases ds <;> rfl

theorem countPrompts_allocTrace (cfg : Config) :
    countPrompts (allocTrace cfg) = 0 := rfl

theorem countOpens_allocTrace (cfg : Config) :
    countOpens (allocTrace cfg) = 0 := rfl

theorem countSaves_allocTrace (cfg : Config) :
    countSaves (allocTrace cfg) = 0 := rfl

theorem countCloses_allocTrace (cfg : Config) :
    countCloses (allocTrace cfg) = 0 := rfl

theorem countMakeDirs_allocTrace (cfg : Config) :
    countMakeDirs (allocTrace cfg) = 0 := rfl

theorem setThresholdEvents_allocTrace (cfg : Config) :
    setThresholdEvents (allocTrace cfg) = [] := rfl

theorem countPrompts_tailTrace (cfg : Config) (f : String) :
    countPrompts (tailTrace cfg f) = 0 := rfl

theorem countOpens_tailTrace (cfg : Config) (f : String) :
    countOpens (tailTrace cfg f) = 0 := rfl

theorem countSaves_tailTrace (cfg : Config) (f : String) :
    countSaves (tailTrace cfg f) = 1 := rfl

theorem countCloses_tailTrace (cfg : Config) (f : String) :
    countCloses (tailTrace cfg f) = 6 := rfl

theorem countMakeDirs_tailTrace (cfg : Config) (f : String) :
    countMakeDirs (tailTrace cfg f) = 0 := rfl

theorem setThresholdEvents_tailTrace (cfg : Config) (f : String) :
    setThresholdEvents (tailTrace cfg f) = [] := rfl

/-!
### Helper lemmas: the threshold branch and the series step
-/

theorem threshBranch_auto (cfg : Config) (human : Nat → Rat × Rat)
    (p : Nat) (st : ThreshState)
    (hA : cfg.thresh_method = ThreshMethod.fullyAutomatic) :
    threshBranch cfg human p st =
      ([Event.autoThreshold "Moments", Event.convertToMaskMoments], st) := by
  simp [threshBranch, hA]

theorem threshBranch_unset (cfg : Config) (human : Nat → Rat × Rat)
    (p : Nat) (st : ThreshState)
    (hA : cfg.thresh_method ≠ ThreshMethod.fullyAutomatic)
    (h0 : st.thresh_value = 0) :
    threshBranch cfg human p st =
      ([Event.promptUser (human p).1 (human p).2],
       { thresh_value := (human p).2, min_thresh_value := some (human p).1 }) := by
  simp [threshBranch, hA, h0]

theorem threshBranch_set (cfg : Config) (human : Nat → Rat × Rat)
    (p : Nat) (st : ThreshState)
    (hA : cfg.thresh_method ≠ ThreshMethod.fullyAutomatic)
    (h0 : st.thresh_value ≠ 0) :
    threshBranch cfg human p st = ([], st) := by
  simp [threshBranch, hA, h0]

theorem processSeries_auto_none (cfg : Config) (f : String) (i : Int)
    (human : Nat → Rat × Rat) (p : Nat) (st : ThreshState)
    (hA : cfg.thresh_method = ThreshMethod.fullyAutomatic)
    (hmin : st.min_thresh_value = none) :
    processSeries cfg f i human p st =
      (openTrace cfg f i ++ allocTrace cfg ++
        [Event.autoThreshold "Moments", Event.convertToMaskMoments,
         Event.nameError "min_thresh_value"], none) := by
  simp [processSeries, threshBranch_auto cfg human p st hA, hmin]

theorem processSeries_manual_unset (cfg : Config) (f : String) (i : Int)
    (human : Nat → Rat × Rat) (p : Nat) (st : ThreshState)
    (hA : cfg.thresh_method ≠ ThreshMethod.fullyAutomatic)
    (h0 : st.thresh_value = 0) :
    processSeries cfg f i human p st =
      (openTrace cfg f i ++ allocTrace cfg ++
        [Event.promptUser (human p).1 (human p).2] ++
        [Event.setThreshold (human p).1 (human p).2, Event.convertToMask] ++
        tailTrace cfg f,
       some { thresh_value :=
                if cfg.thresh_method = ThreshMethod.fullyManual then 0
                else (human p).2,
              min_thresh_value := some (human p).1 }) := by
  by_cases hM : cfg.thresh_method = ThreshMethod.fullyManual <;>
    simp [processSeries, threshBranch_unset cfg human p st hA h0, hM]

theorem processSeries_manual_set (cfg : Config) (f : String) (i : Int)
    (human : Nat → Rat × Rat) (p : Nat) (st : ThreshState) (m : Rat)
    (hA : cfg.thresh_method ≠ ThreshMethod.fullyAutomatic)
    (h0 : st.thresh_value ≠ 0)
    (hmin : st.min_thresh_value = some m) :
    processSeries cfg f i human p st =
      (openTrace cfg f i ++ allocTrace cfg ++
        [Event.setThreshold m st.thresh_value, Event.convertToMask] ++
        tailTrace cfg f,
       some (if cfg.thresh_method = ThreshMethod.fullyManual then
               { st with thresh_value := 0 }
             else st)) := by
  by_cases hM : cfg.thresh_method = ThreshMethod.fullyManual <;>
    simp [processSeries, threshBranch_set cfg human p st hA h0, hmin, hM]

theorem seriesStep_none (cfg : Config) (human : Nat → Rat × Rat)
    (path : String) (idx : List Int) (tr : List Event) (s : Nat) :
    seriesStep cfg human path idx (tr, none) s = (tr, none) := rfl

theorem seriesStep_some (cfg : Config) (human : Nat → Rat × Rat)
    (path : String) (idx : List Int) (tr : List Event) (st : ThreshState)
    (s : Nat) :
    seriesStep cfg human path idx (tr, some st) s =
      (tr ++ (processSeries cfg path (idx.getD s 0) human (countPrompts tr) st).1,
       (processSeries cfg path (idx.getD s 0) human (countPrompts tr) st).2) := rfl

theorem foldl_seriesStep_none (cfg : Config) (human : Nat → Rat × Rat)
    (path : String) (idx : List Int) :
    ∀ (l : List Nat) (tr : List Event),
      l.foldl (seriesStep cfg human path idx) (tr, none) = (tr, none) := by
  intro l
  induction l with
  | nil => intro tr; rfl
  | cons s l ih => intro tr; simp [List.foldl_cons, seriesStep_none, ih]

theorem runFile_none (cfg : Config) (human : Nat → Rat × Rat)
    (tr : List Event) (fm : FileMeta) :
    runFile cfg human (tr, none) fm = (tr, none) := by
  simp [runFile, foldl_seriesStep_none]

theorem foldl_runFile_none (cfg : Config) (human : Nat → Rat × Rat) :
    ∀ (files : List FileMeta) (tr : List Event),
      files.foldl (runFile cfg human) (tr, none) = (tr, none) := by
  intro files
  induction files with
  | nil => intro tr; rfl
  | cons fm files ih => intro tr; simp [List.foldl_cons, runFile_none, ih]

theorem countPrompts_autoPair (m : String) :
    countPrompts [Event.autoThreshold m, Event.convertToMaskMoments] = 0 := rfl

theorem countPrompts_promptOne (a b : Rat) :
    countPrompts [Event.promptUser a b] = 1 := rfl

theorem countPrompts_setcvm (a b : Rat) :
    countPrompts [Event.setThreshold a b, Event.convertToMask] = 0 := rfl

theorem countPrompts_autoFail (m n : String) :
    countPrompts [Event.autoThreshold m, Event.convertToMaskMoments,
      Event.nameError n] = 0 := rfl

theorem countPrompts_ne (n : String) :
    countPrompts [Event.nameError n] = 0 := rfl

theorem countOpens_autoPair (m : String) :
    countOpens [Event.autoThreshold m, Event.convertToMaskMoments] = 0 := rfl

theorem countOpens_promptOne (a b : Rat) :
    countOpens [Event.promptUser a b] = 0 := rfl

theorem countOpens_setcvm (a b : Rat) :
    countOpens [Event.setThreshold a b, Event.convertToMask] = 0 := rfl

theorem countOpens_autoFail (m n : String) :
    countOpens [Event.autoThreshold m, Event.convertToMaskMoments,
      Event.nameError n] = 0 := rfl

theorem countSaves_autoPair (m : String) :
    countSaves [Event.autoThreshold m, Event.convertToMaskMoments] = 0 := rfl

theorem countSaves_promptOne (a b : Rat) :
    countSaves [Event.promptUser a b] = 0 := rfl

theorem countSaves_setcvm (a b : Rat) :
    countSaves [Event.setThreshold a b, Event.convertToMask] = 0 := rfl

theorem countSaves_autoFail (m n : String) :
    countSaves [Event.autoThreshold m, Event.convertToMaskMoments,
      Event.nameError n] = 0 := rfl

theorem countCloses_autoPair (m : String) :
    countCloses [Event.autoThreshold m, Event.convertToMaskMoments] = 0 := rfl

theorem countCloses_promptOne (a b : Rat) :
    countCloses [Event.promptUser a b] = 0 := rfl

theorem countCloses_setcvm (a b : Rat) :
    countCloses [Event.setThreshold a b, Event.convertToMask] = 0 := rfl

theorem countMakeDirs_autoPair (m : String) :
    countMakeDirs [Event.autoThreshold m, Event.convertToMaskMoments] = 0 := rfl

theorem countMakeDirs_promptOne (a b : Rat) :
    countMakeDirs [Event.promptUser a b] = 0 := rfl

theorem countMakeDirs_setcvm (a b : Rat) :
    countMakeDirs [Event.setThreshold a b, Event.convertToMask] = 0 := rfl

theorem countMakeDirs_autoFail (m n : String) :
    countMakeDirs [Event.autoThreshold m, Event.convertToMaskMoments,
      Event.nameError n] = 0 := rfl

theorem countMakeDirs_ne (n : String) :
    countMakeDirs [Event.nameError n] = 0 := rfl

theorem setThresholdEvents_autoPair (m : String) :
    setThresholdEvents [Event.autoThreshold m, Event.convertToMaskMoments] = [] := rfl

theorem setThresholdEvents_promptOne (a b : Rat) :
    setThresholdEvents [Event.promptUser a b] = [] := rfl

theorem setThresholdEvents_setcvm (a b : Rat) :
    setThresholdEvents [Event.setThreshold a b, Event.convertToMask] = [(a, b)] := rfl

/-- The remaining success cases of the threshold branch: fully-automatic mode
with a bound `min_thresh_value` still applies the stored threshold pair at
line 312. -/
theorem processSeries_auto_some (cfg : Config) (f : String) (i : Int)
    (human : Nat → Rat × Rat) (p : Nat) (st : ThreshState) (m : Rat)
    (hA : cfg.thresh_method = ThreshMethod.fullyAutomatic)
    (hmin : st.min_thresh_value = some m) :
    processSeries cfg f i human p st =
      (openTrace cfg f i ++ allocTrace cfg ++
        [Event.autoThreshold "Moments", Event.convertToMaskMoments] ++
        [Event.setThreshold m st.thresh_value, Event.convertToMask] ++
        tailTrace cfg f,
       some st) := by
  have hM : cfg.thresh_method ≠ ThreshMethod.fullyManual := by
    rw [hA]; intro hc; cases hc
  simp [processSeries, threshBranch_auto cfg human p st hA, hmin, hM]

/-- A set threshold value together with an unbound `min_thresh_value` (not
reachable from the initial state, but part of the state space) also raises at
line 312. -/
theorem processSeries_set_none (cfg : Config) (f : String) (i : Int)
    (human : Nat → Rat × Rat) (p : Nat) (st : ThreshState)
    (hA : cfg.thresh_method ≠ ThreshMethod.fullyAutomatic)
    (h0 : st.thresh_value ≠ 0)
    (hmin : st.min_thresh_value = none) :
    processSeries cfg f i human p st =
      (openTrace cfg f i ++ allocTrace cfg ++ [Event.nameError "min_thresh_value"],
       none) := by
  simp [processSeries, threshBranch_set cfg human p st hA h0, hmin]

/-- C4: in Fully-automatic mode, the first series reaches the unconditional
set-threshold call of line 312 with `min_thresh_value` never assigned (the
manual branch that would assign it was skipped and no prompt fired), so the
run raises an undefined-name error during series 1: the final state is the
halt state, exactly one series was opened, and nothing was saved. -/
theorem C4_auto_mode_undefined_min_thresh (cfg : Config)
    (human : Nat → Rat × Rat) (fm : FileMeta) (rest : List FileMeta)
    (hA : cfg.thresh_method = ThreshMethod.fullyAutomatic)
    (hn : 1 ≤ fm.series_count) :
    (runScript cfg human (fm :: rest)).2 = none ∧
    Event.nameError "min_thresh_value" ∈ (runScript cfg human (fm :: rest)).1 ∧
    countOpens (runScript cfg human (fm :: rest)).1 = 1 ∧
    countPrompts (runScript cfg human (fm :: rest)).1 = 0 ∧
    countSaves (runScript cfg human (fm :: rest)).1 = 0 := by
  obtain ⟨k, hk⟩ : ∃ k, fm.series_count = k + 1 := ⟨fm.series_count - 1, by omega⟩
  have h1 : runFile cfg human ([], some initState) fm =
      (openTrace cfg fm.path
          (((get_series_info_from_ome_metadata fm.series_count
              fm.resolutionCount).2).getD 0 0) ++ allocTrace cfg ++
        [Event.autoThreshold "Moments", Event.convertToMaskMoments,
         Event.nameError "min_thresh_value"], none) := by
    unfold runFile
    have hc : (get_series_info_from_ome_metadata fm.series_count
        fm.resolutionCount).1 = k + 1 := hk
    rw [hc, List.range_succ_eq_map, List.foldl_cons, seriesStep_some,
      processSeries_auto_none cfg fm.path
        (((get_series_info_from_ome_metadata fm.series_count
            fm.resolutionCount).2).getD 0 0) human (countPrompts []) initState
        hA rfl]
    simp [foldl_seriesStep_none]
  have h2 : runScript cfg human (fm :: rest) =
      (openTrace cfg fm.path
          (((get_series_info_from_ome_metadata fm.series_count
              fm.resolutionCount).2).getD 0 0) ++ allocTrace cfg ++
        [Event.autoThreshold "Moments", Event.convertToMaskMoments,
         Event.nameError "min_thresh_value"], none) := by
    unfold runScript
    rw [List.foldl_cons, h1, foldl_runFile_none]
  rw [h2]
  refine ⟨rfl, by simp, ?_, ?_, ?_⟩
  · rw [countOpens_append, countOpens_append, countOpens_openTrace,
      countOpens_allocTrace, countOpens_autoFail]
  · rw [countPrompts_append, countPrompts_append, countPrompts_openTrace,
      countPrompts_allocTrace, countPrompts_autoFail]
  · rw [countSaves_append, countSaves_append, countSaves_openTrace,
      countSaves_allocTrace, countSaves_autoFail]

/-- C4 witness: the automatic-mode run over the two-series sample file halts
with the undefined-name error after opening only the first series. -/
theorem C4_witness :
    (runScript cfgAuto humanConst [fmSample]).2 = none ∧
    Event.nameError "min_thresh_value" ∈ (runScript cfgAuto humanConst [fmSample]).1 ∧
    countOpens (runScript cfgAuto humanConst [fmSample]).1 = 1 ∧
    countPrompts (runScript cfgAuto humanConst [fmSample]).1 = 0 ∧
    countSaves (runScript cfgAuto humanConst [fmSample]).1 = 0 :=
  C4_auto_mode_undefined_min_thresh cfgAuto humanConst fmSample [] rfl (by decide)

/-- C3: evaluation of the code at the failing input. In Fully-automatic mode
the prompt indeed never fires, and series 1 does run the Moments
auto-threshold; but the run then halts with the `min_thresh_value` name error
during series 1, so of the file's two series only one is ever opened and no
series completes (nothing is saved) — contradicting the claim that each
series independently computes its threshold. -/
theorem C3_fully_automatic_run_halts :
    countPrompts (runScript cfgAuto humanConst [fmSample]).1 = 0 ∧
    Event.autoThreshold "Moments" ∈ (runScript cfgAuto humanConst [fmSample]).1 ∧
    Event.nameError "min_thresh_value" ∈ (runScript cfgAuto humanConst [fmSample]).1 ∧
    (runScript cfgAuto humanConst [fmSample]).2 = none ∧
    fmSample.series_count = 2 ∧
    countOpens (runScript cfgAuto humanConst [fmSample]).1 = 1 ∧
    countSaves (runScript cfgAuto humanConst [fmSample]).1 = 0 := by
  decide

/-- C6: evaluation of the code at the failing input. Line 258 re-assigns
`basename` to the unstripped file name, so the run on `/data/sample.nd2`
writes `/out/sample.nd2_ratio.tif` (resp. `..._ratio_chnlaligned.tif`), not
the suffix-stripped `/out/sample_ratio.tif` the claim states (which is what
the discarded `splitext` of line 243 would have produced). -/
theorem C6_output_path_eval :
    out_ratio_path "/out" "/data/sample.nd2" false = "/out/sample.nd2_ratio.tif" ∧
    out_ratio_path "/out" "/data/sample.nd2" true =
      "/out/sample.nd2_ratio_chnlaligned.tif" ∧
    os_path_join "/out"
      (os_path_splitext_root (os_path_basename "/data/sample.nd2") ++ "_ratio.tif") =
      "/out/sample_ratio.tif" ∧
    out_ratio_path "/out" "/data/sample.nd2" false ≠ "/out/sample_ratio.tif" := by
  decide

/-- C7 (amended): on a series iteration that completes without raising, the
six explicit closes of lines 347-352 all happen within that iteration (before
the next series begins): the opened stack, the final result, both channel
duplicates, the edge-response stack and the segmentation stack. (The
intermediate `Divide create` result orphaned by line 330 has no close, and —
per the counterexample — a raising iteration closes nothing.) -/
theorem C7_release_on_success (cfg : Config) (f : String) (i : Int)
    (human : Nat → Rat × Rat) (p : Nat) (st st' : ThreshState)
    (h : (processSeries cfg f i human p st).2 = some st') :
    countCloses (processSeries cfg f i human p st).1 = 6 ∧
    Event.closeImp ∈ (processSeries cfg f i human p st).1 ∧
    Event.closeResult ∈ (processSeries cfg f i human p st).1 ∧
    Event.closeC1 ∈ (processSeries cfg f i human p st).1 ∧
    Event.closeC2 ∈ (processSeries cfg f i human p st).1 ∧
    Event.closeLaplace ∈ (processSeries cfg f i human p st).1 ∧
    Event.closeSegment ∈ (processSeries cfg f i human p st).1 := by
  by_cases hA : cfg.thresh_method = ThreshMethod.fullyAutomatic
  · cases hmin : st.min_thresh_value with
    | none =>
      rw [processSeries_auto_none cfg f i human p st hA hmin] at h
      simp at h
    | some m =>
      have ht : (processSeries cfg f i human p st).1 =
          openTrace cfg f i ++ allocTrace cfg ++
            [Event.autoThreshold "Moments", Event.convertToMaskMoments] ++
            [Event.setThreshold m st.thresh_value, Event.convertToMask] ++
            tailTrace cfg f := by
        rw [processSeries_auto_some cfg f i human p st m hA hmin]
      rw [ht]
      refine ⟨?_, ?_, ?_, ?_, ?_, ?_, ?_⟩
      · rw [countCloses_append, countCloses_append, countCloses_append,
          countCloses_append, countCloses_openTrace, countCloses_allocTrace,
          countCloses_autoPair, countCloses_setcvm, countCloses_tailTrace]
      all_goals simp [tailTrace]
  · by_cases h0 : st.thresh_value = 0
    · have ht : (processSeries cfg f i human p st).1 =
          openTrace cfg f i ++ allocTrace cfg ++
            [Event.promptUser (human p).1 (human p).2] ++
            [Event.setThreshold (human p).1 (human p).2, Event.convertToMask] ++
            tailTrace cfg f := by
        rw [processSeries_manual_unset cfg f i human p st hA h0]
      rw [ht]
      refine ⟨?_, ?_, ?_, ?_, ?_, ?_, ?_⟩
      · rw [countCloses_append, countCloses_append, countCloses_append,
          countCloses_append, countCloses_openTrace, countCloses_allocTrace,
          countCloses_promptOne, countCloses_setcvm, countCloses_tailTrace]
      all_goals simp [tailTrace]
    · cases hmin : st.min_thresh_value with
      | none =>
        rw [processSeries_set_none cfg f i human p st hA h0 hmin] at h
        simp at h
      | some m =>
        have ht : (processSeries cfg f i human p st).1 =
            openTrace cfg f i ++ allocTrace cfg ++
              [Event.setThreshold m st.thresh_value, Event.convertToMask] ++
              tailTrace cfg f := by
          rw [processSeries_manual_set cfg f i human p st m hA h0 hmin]
        rw [ht]
        refine ⟨?_, ?_, ?_, ?_, ?_, ?_, ?_⟩
        · rw [countCloses_append, countCloses_append, countCloses_append,
            countCloses_openTrace, countCloses_allocTrace,
            countCloses_setcvm, countCloses_tailTrace]
        all_goals simp [tailTrace]

/-- C7 witness: on the first (fully-manual) series of the sample file the six
closes all happen. -/
theorem C7_witness :
    countCloses (processSeries cfgManual "/data/sample.nd2" 0 humanConst 0
        initState).1 = 6 ∧
    Event.closeImp ∈ (processSeries cfgManual "/data/sample.nd2" 0 humanConst 0
        initState).1 ∧
    Event.closeResult ∈ (processSeries cfgManual "/data/sample.nd2" 0 humanConst 0
        initState).1 ∧
    Event.closeC1 ∈ (processSeries cfgManual "/data/sample.nd2" 0 humanConst 0
        initState).1 ∧
    Event.closeC2 ∈ (processSeries cfgManual "/data/sample.nd2" 0 humanConst 0
        initState).1 ∧
    Event.closeLaplace ∈ (processSeries cfgManual "/data/sample.nd2" 0 humanConst 0
        initState).1 ∧
    Event.closeSegment ∈ (processSeries cfgManual "/data/sample.nd2" 0 humanConst 0
        initState).1 :=
  C7_release_on_success cfgManual "/data/sample.nd2" 0 humanConst 0 initState
    { thresh_value := 0, min_thresh_value := some 1 } (by decide)

/-- C7 counterexample: the claim says every stack allocated during a series
is released even when a downstream step fails; but in the fully-automatic run
the first series allocates five stacks (the opened stack, both channel
duplicates, the segmentation stack, the edge-response stack), raises at the
set-threshold step, and closes nothing — the run halts with all five
unreleased. -/
theorem C7_counterexample :
    countAllocs (runScript cfgAuto humanConst [fmSample]).1 = 5 ∧
    countCloses (runScript cfgAuto humanConst [fmSample]).1 = 0 ∧
    (runScript cfgAuto humanConst [fmSample]).2 = none := by
  decide

theorem countMakeDirs_processSeries (cfg : Config) (f : String) (i : Int)
    (human : Nat → Rat × Rat) (p : Nat) (st : ThreshState) :
    countMakeDirs (processSeries cfg f i human p st).1 = 0 := by
  by_cases hA : cfg.thresh_method = ThreshMethod.fullyAutomatic
  · cases hmin : st.min_thresh_value with
    | none =>
      have ht : (processSeries cfg f i human p st).1 =
          openTrace cfg f i ++ allocTrace cfg ++
            [Event.autoThreshold "Moments", Event.convertToMaskMoments,
             Event.nameError "min_thresh_value"] := by
        rw [processSeries_auto_none cfg f i human p st hA hmin]
      rw [ht, countMakeDirs_append, countMakeDirs_append,
        countMakeDirs_openTrace, countMakeDirs_allocTrace, countMakeDirs_autoFail]
    | some m =>
      have ht : (processSeries cfg f i human p st).1 =
          openTrace cfg f i ++ allocTrace cfg ++
            [Event.autoThreshold "Moments", Event.convertToMaskMoments] ++
            [Event.setThreshold m st.thresh_value, Event.convertToMask] ++
            tailTrace cfg f := by
        rw [processSeries_auto_some cfg f i human p st m hA hmin]
      rw [ht, countMakeDirs_append, countMakeDirs_append, countMakeDirs_append,
        countMakeDirs_append, countMakeDirs_openTrace, countMakeDirs_allocTrace,
        countMakeDirs_autoPair, countMakeDirs_setcvm, countMakeDirs_tailTrace]
  · by_cases h0 : st.thresh_value = 0
    · have ht : (processSeries cfg f i human p st).1 =
          openTrace cfg f i ++ allocTrace cfg ++
            [Event.promptUser (human p).1 (human p).2] ++
            [Event.setThreshold (human p).1 (human p).2, Event.convertToMask] ++
            tailTrace cfg f := by
        rw [processSeries_manual_unset cfg f i human p st hA h0]
      rw [ht, countMakeDirs_append, countMakeDirs_append, countMakeDirs_append,
        countMakeDirs_append, countMakeDirs_openTrace, countMakeDirs_allocTrace,
        countMakeDirs_promptOne, countMakeDirs_setcvm, countMakeDirs_tailTrace]
    · cases hmin : st.min_thresh_value with
      | none =>
        have ht : (processSeries cfg f i human p st).1 =
            openTrace cfg f i ++ allocTrace cfg ++
              [Event.nameError "min_thresh_value"] := by
          rw [processSeries_set_none cfg f i human p st hA h0 hmin]
        rw [ht, countMakeDirs_append, countMakeDirs_append,
          countMakeDirs_openTrace, countMakeDirs_allocTrace, countMakeDirs_ne]
      | some m =>
        have ht : (processSeries cfg f i human p st).1 =
            openTrace cfg f i ++ allocTrace cfg ++
              [Event.setThreshold m st.thresh_value, Event.convertToMask] ++
              tailTrace cfg f := by
          rw [processSeries_manual_set cfg f i human p st m hA h0 hmin]
        rw [ht, countMakeDirs_append, countMakeDirs_append, countMakeDirs_append,
          countMakeDirs_openTrace, countMakeDirs_allocTrace,
          countMakeDirs_setcvm, countMakeDirs_tailTrace]

theorem countMakeDirs_foldl_series (cfg : Config) (human : Nat → Rat × Rat)
    (path : String) (idx : List Int) :
    ∀ (l : List Nat) (acc : List Event × Option ThreshState),
      countMakeDirs ((l.foldl (seriesStep cfg human path idx) acc).1) =
        countMakeDirs acc.1 := by
  intro l
  induction l with
  | nil => intro acc; rfl
  | cons s l ih =>
    intro acc
    rw [List.foldl_cons, ih]
    rcases acc with ⟨tr, stOpt⟩
    cases stOpt with
    | none => rfl
    | some st =>
      rw [seriesStep_some]
      simp [countMakeDirs_append, countMakeDirs_processSeries]

theorem countMakeDirs_runScript (cfg : Config) (human : Nat → Rat × Rat) :
    ∀ (files : List FileMeta) (acc : List Event × Option ThreshState),
      countMakeDirs ((files.foldl (runFile cfg human) acc).1) =
        countMakeDirs acc.1 := by
  intro files
  induction files with
  | nil => intro acc; rfl
  | cons fm files ih =>
    intro acc
    rw [List.foldl_cons, ih]
    unfold runFile
    rw [countMakeDirs_foldl_series]

/-- C9 (amended): every series that completes saves its result as a TIFF via
`IJ.saveAs` at the computed output path; and no run ever performs a
directory-creation action — `check_folder` (the helper that would create a
missing folder) is never invoked, so absent parent directories are not
created. -/
theorem C9_exporter_amended (cfg : Config) (f : String) (i : Int)
    (human : Nat → Rat × Rat) (p : Nat) (st st' : ThreshState)
    (files : List FileMeta)
    (h : (processSeries cfg f i human p st).2 = some st') :
    Event.saveTiff (out_ratio_path cfg.out_dir f cfg.do_stackreg) ∈
      (processSeries cfg f i human p st).1 ∧
    countMakeDirs (runScript cfg human files).1 = 0 := by
  constructor
  · by_cases hA : cfg.thresh_method = ThreshMethod.fullyAutomatic
    · cases hmin : st.min_thresh_value with
      | none =>
        rw [processSeries_auto_none cfg f i human p st hA hmin] at h
        simp at h
      | some m =>
        have ht : (processSeries cfg f i human p st).1 =
            openTrace cfg f i ++ allocTrace cfg ++
              [Event.autoThreshold "Moments", Event.convertToMaskMoments] ++
              [Event.setThreshold m st.thresh_value, Event.convertToMask] ++
              tailTrace cfg f := by
          rw [processSeries_auto_some cfg f i human p st m hA hmin]
        rw [ht]; simp [tailTrace]
    · by_cases h0 : st.thresh_value = 0
      · have ht : (processSeries cfg f i human p st).1 =
            openTrace cfg f i ++ allocTrace cfg ++
              [Event.promptUser (human p).1 (human p).2] ++
              [Event.setThreshold (human p).1 (human p).2, Event.convertToMask] ++
              tailTrace cfg f := by
          rw [processSeries_manual_unset cfg f i human p st hA h0]
        rw [ht]; simp [tailTrace]
      · cases hmin : st.min_thresh_value with
        | none =>
          rw [processSeries_set_none cfg f i human p st hA h0 hmin] at h
          simp at h
        | some m =>
          have ht : (processSeries cfg f i human p st).1 =
              openTrace cfg f i ++ allocTrace cfg ++
                [Event.setThreshold m st.thresh_value, Event.convertToMask] ++
                tailTrace cfg f := by
            rw [processSeries_manual_set cfg f i human p st m hA h0 hmin]
          rw [ht]; simp [tailTrace]
  · unfold runScript
    rw [countMakeDirs_runScript]
    rfl

/-- C9 witness: the first fully-manual series of the sample file saves its
TIFF at the computed path, and the whole run performs no directory
creation. -/
theorem C9_witness :
    Event.saveTiff (out_ratio_path cfgManual.out_dir "/data/sample.nd2"
        cfgManual.do_stackreg) ∈
      (processSeries cfgManual "/data/sample.nd2" 0 humanConst 0 initState).1 ∧
    countMakeDirs (runScript cfgManual humanConst [fmSample]).1 = 0 :=
  C9_exporter_amended cfgManual "/data/sample.nd2" 0 humanConst 0 initState
    { thresh_value := 0, min_thresh_value := some 1 } [fmSample] (by decide)

/-- C9 counterexample: the claim says the exporter creates the output path's
parent directories when absent; but a complete two-series run (which saves
twice) contains no directory-creation action at all, so absent parents are
never created. -/
theorem C9_counterexample :
    countSaves (runScript cfgManual humanConst [fmSample]).1 = 2 ∧
    countMakeDirs (runScript cfgManual humanConst [fmSample]).1 = 0 ∧
    Event.saveTiff "/out/sample.nd2_ratio.tif" ∈
      (runScript cfgManual humanConst [fmSample]).1 := by
  decide

/-- A fully-manual series with the threshold unset: the dialog fires once,
the captured pair is applied, and lines 316-317 force the state back to
unset. -/
theorem processSeries_fullyManual_step (cfg : Config) (f : String) (i : Int)
    (human : Nat → Rat × Rat) (p : Nat) (st : ThreshState)
    (hm : cfg.thresh_method = ThreshMethod.fullyManual)
    (h0 : st.thresh_value = 0) :
    (processSeries cfg f i human p st).2 =
      some { thresh_value := 0, min_thresh_value := some (human p).1 } ∧
    countPrompts (processSeries cfg f i human p st).1 = 1 := by
  have hA : cfg.thresh_method ≠ ThreshMethod.fullyAutomatic := by
    rw [hm]; intro hc; cases hc
  have ht := processSeries_manual_unset cfg f i human p st hA h0
  constructor
  · rw [ht]; simp [hm]
  · have ht1 : (processSeries cfg f i human p st).1 =
        openTrace cfg f i ++ allocTrace cfg ++
          [Event.promptUser (human p).1 (human p).2] ++
          [Event.setThreshold (human p).1 (human p).2, Event.convertToMask] ++
          tailTrace cfg f := by rw [ht]
    rw [ht1, countPrompts_append, countPrompts_append, countPrompts_append,
      countPrompts_append, countPrompts_openTrace, countPrompts_allocTrace,
      countPrompts_promptOne, countPrompts_setcvm, countPrompts_tailTrace]

/-- A manual-once series with the threshold unset: the dialog fires once, the
captured pair is applied and retained. -/
theorem processSeries_manualOnce_unset_step (cfg : Config) (f : String) (i : Int)
    (human : Nat → Rat × Rat) (p : Nat) (st : ThreshState)
    (hm : cfg.thresh_method = ThreshMethod.manualOnceApplyAll)
    (h0 : st.thresh_value = 0) :
    (processSeries cfg f i human p st).2 =
      some { thresh_value := (human p).2, min_thresh_value := some (human p).1 } ∧
    countPrompts (processSeries cfg f i human p st).1 = 1 ∧
    setThresholdEvents (processSeries cfg f i human p st).1 =
      [((human p).1, (human p).2)] := by
  have hA : cfg.thresh_method ≠ ThreshMethod.fullyAutomatic := by
    rw [hm]; intro hc; cases hc
  have hM : cfg.thresh_method ≠ ThreshMethod.fullyManual := by
    rw [hm]; intro hc; cases hc
  have ht := processSeries_manual_unset cfg f i human p st hA h0
  have ht1 : (processSeries cfg f i human p st).1 =
      openTrace cfg f i ++ allocTrace cfg ++
        [Event.promptUser (human p).1 (human p).2] ++
        [Event.setThreshold (human p).1 (human p).2, Event.convertToMask] ++
        tailTrace cfg f := by rw [ht]
  refine ⟨by rw [ht]; simp [hM], ?_, ?_⟩
  · rw [ht1, countPrompts_append, countPrompts_append, countPrompts_append,
      countPrompts_append, countPrompts_openTrace, countPrompts_allocTrace,
      countPrompts_promptOne, countPrompts_setcvm, countPrompts_tailTrace]
  · rw [ht1, setThresholdEvents_append, setThresholdEvents_append,
      setThresholdEvents_append, setThresholdEvents_append,
      setThresholdEvents_openTrace, setThresholdEvents_allocTrace,
      setThresholdEvents_promptOne, setThresholdEvents_setcvm,
      setThresholdEvents_tailTrace]
    simp

/-- A manual-once series with the threshold already set: no dialog, the stored
pair is applied, the state is unchanged. -/
theorem processSeries_manualOnce_set_step (cfg : Config) (f : String) (i : Int)
    (human : Nat → Rat × Rat) (p : Nat) (st : ThreshState) (m : Rat)
    (hm : cfg.thresh_method = ThreshMethod.manualOnceApplyAll)
    (hv : st.thresh_value ≠ 0)
    (hmin : st.min_thresh_value = some m) :
    (processSeries cfg f i human p st).2 = some st ∧
    countPrompts (processSeries cfg f i human p st).1 = 0 ∧
    setThresholdEvents (processSeries cfg f i human p st).1 =
      [(m, st.thresh_value)] := by
  have hA : cfg.thresh_method ≠ ThreshMethod.fullyAutomatic := by
    rw [hm]; intro hc; cases hc
  have hM : cfg.thresh_method ≠ ThreshMethod.fullyManual := by
    rw [hm]; intro hc; cases hc
  have ht := processSeries_manual_set cfg f i human p st m hA hv hmin
  have ht1 : (processSeries cfg f i human p st).1 =
      openTrace cfg f i ++ allocTrace cfg ++
        [Event.setThreshold m st.thresh_value, Event.convertToMask] ++
        tailTrace cfg f := by rw [ht]
  refine ⟨by rw [ht]; simp [hM], ?_, ?_⟩
  · rw [ht1, countPrompts_append, countPrompts_append, countPrompts_append,
      countPrompts_openTrace, countPrompts_allocTrace,
      countPrompts_setcvm, countPrompts_tailTrace]
  · rw [ht1, setThresholdEvents_append, setThresholdEvents_append,
      setThresholdEvents_append, setThresholdEvents_openTrace,
      setThresholdEvents_allocTrace, setThresholdEvents_setcvm,
      setThresholdEvents_tailTrace]
    simp

theorem totalSeries_nil : totalSeries [] = 0 := rfl

theorem totalSeries_cons (fm : FileMeta) (files : List FileMeta) :
    totalSeries (fm :: files) = fm.series_count + totalSeries files := by
  simp [totalSeries]

/-- Fully-manual invariant over one series loop: the state stays unset and
every series adds exactly one dialog. -/
theorem fullyManual_series_loop (cfg : Config) (human : Nat → Rat × Rat)
    (path : String) (idx : List Int)
    (hm : cfg.thresh_method = ThreshMethod.fullyManual) :
    ∀ (l : List Nat) (tr : List Event) (st : ThreshState),
      st.thresh_value = 0 →
      ∃ (tr2 : List Event) (st2 : ThreshState),
        l.foldl (seriesStep cfg human path idx) (tr, some st) = (tr2, some st2) ∧
        st2.thresh_value = 0 ∧
        countPrompts tr2 = countPrompts tr + l.length := by
  intro l
  induction l with
  | nil =>
    intro tr st h0
    exact ⟨tr, st, rfl, h0, by simp⟩
  | cons s l ih =>
    intro tr st h0
    rw [List.foldl_cons, seriesStep_some]
    obtain ⟨hst, hcp⟩ := processSeries_fullyManual_step cfg path (idx.getD s 0)
      human (countPrompts tr) st hm h0
    rw [hst]
    obtain ⟨tr2, st2, heq, h02, hcp2⟩ := ih
      (tr ++ (processSeries cfg path (idx.getD s 0) human (countPrompts tr) st).1)
      { thresh_value := 0,
        min_thresh_value := some (human (countPrompts tr)).1 } rfl
    refine ⟨tr2, st2, heq, h02, ?_⟩
    rw [hcp2, countPrompts_append, hcp]
    simp
    omega

/-- Fully-manual invariant over the file loop. -/
theorem fullyManual_files_loop (cfg : Config) (human : Nat → Rat × Rat)
    (hm : cfg.thresh_method = ThreshMethod.fullyManual) :
    ∀ (files : List FileMeta) (tr : List Event) (st : ThreshState),
      st.thresh_value = 0 →
      ∃ (tr2 : List Event) (st2 : ThreshState),
        files.foldl (runFile cfg human) (tr, some st) = (tr2, some st2) ∧
        st2.thresh_value = 0 ∧
        countPrompts tr2 = countPrompts tr + totalSeries files := by
  intro files
  induction files with
  | nil =>
    intro tr st h0
    exact ⟨tr, st, rfl, h0, by simp [totalSeries_nil]⟩
  | cons fm files ih =>
    intro tr st h0
    rw [List.foldl_cons]
    rw [show runFile cfg human (tr, some st) fm =
      (List.range
          (get_series_info_from_ome_metadata fm.series_count
            fm.resolutionCount).1).foldl
        (seriesStep cfg human fm.path
          (get_series_info_from_ome_metadata fm.series_count fm.resolutionCount).2)
        (tr, some st) from rfl]
    obtain ⟨trF, stF, heqF, h0F, hcpF⟩ := fullyManual_series_loop cfg human fm.path
      (get_series_info_from_ome_metadata fm.series_count fm.resolutionCount).2 hm
      (List.range
        (get_series_info_from_ome_metadata fm.series_count fm.resolutionCount).1)
      tr st h0
    rw [heqF]
    obtain ⟨tr2, st2, heq, h02, hcp2⟩ := ih trF stF h0F
    refine ⟨tr2, st2, heq, h02, ?_⟩
    rw [hcp2, hcpF, List.length_range, totalSeries_cons,
      show (get_series_info_from_ome_metadata fm.series_count
        fm.resolutionCount).1 = fm.series_count from rfl]
    omega

/-- C2: in Fully-manual mode the dialog fires exactly once per series over the
whole run (N series make N prompts), because the threshold state is forced
back to unset after each series consumes its threshold — the run ends with
the state unset again. -/
theorem C2_fully_manual_prompts_every_series (cfg : Config)
    (human : Nat → Rat × Rat) (files : List FileMeta)
    (hm : cfg.thresh_method = ThreshMethod.fullyManual) :
    countPrompts (runScript cfg human files).1 = totalSeries files ∧
    ∃ st2 : ThreshState, (runScript cfg human files).2 = some st2 ∧
      st2.thresh_value = 0 := by
  obtain ⟨tr2, st2, heq, h02, hcp⟩ :=
    fullyManual_files_loop cfg human hm files [] initState rfl
  unfold runScript
  rw [heq]
  exact ⟨by rw [hcp, show countPrompts ([] : List Event) = 0 from rfl]; omega,
    st2, rfl, h02⟩

/-- C2 witness: the fully-manual run over the two-series sample file prompts
twice and ends unset. -/
theorem C2_witness :
    countPrompts (runScript cfgManual humanConst [fmSample]).1 =
      totalSeries [fmSample] ∧
    ∃ st2 : ThreshState, (runScript cfgManual humanConst [fmSample]).2 = some st2 ∧
      st2.thresh_value = 0 :=
  C2_fully_manual_prompts_every_series cfgManual humanConst [fmSample] rfl

/-- Manual-once steady state over one series loop: once a nonzero max is
stored, nothing prompts and every series re-applies the identical stored
pair. -/
theorem manualOnce_series_loop_set (cfg : Config) (human : Nat → Rat × Rat)
    (path : String) (idx : List Int)
    (hm : cfg.thresh_method = ThreshMethod.manualOnceApplyAll) :
    ∀ (l : List Nat) (tr : List Event) (v m : Rat), v ≠ 0 →
      ∃ tr2 : List Event,
        l.foldl (seriesStep cfg human path idx)
            (tr, some { thresh_value := v, min_thresh_value := some m }) =
          (tr2, some { thresh_value := v, min_thresh_value := some m }) ∧
        countPrompts tr2 = countPrompts tr ∧
        setThresholdEvents tr2 =
          setThresholdEvents tr ++ List.replicate l.length (m, v) := by
  intro l
  induction l with
  | nil =>
    intro tr v m hv
    exact ⟨tr, rfl, rfl, by simp⟩
  | cons s l ih =>
    intro tr v m hv
    rw [List.foldl_cons, seriesStep_some]
    obtain ⟨hst, hcp, hset⟩ := processSeries_manualOnce_set_step cfg path
      (idx.getD s 0) human (countPrompts tr)
      { thresh_value := v, min_thresh_value := some m } m hm hv rfl
    rw [hst]
    obtain ⟨tr2, heq, hcp2, hset2⟩ := ih
      (tr ++ (processSeries cfg path (idx.getD s 0) human (countPrompts tr)
        { thresh_value := v, min_thresh_value := some m }).1) v m hv
    refine ⟨tr2, heq, ?_, ?_⟩
    · rw [hcp2, countPrompts_append, hcp]
      omega
    · rw [hset2, setThresholdEvents_append, hset, List.append_assoc]
      rw [show ([(m, v)] ++ List.replicate l.length (m, v)) =
        List.replicate (l.length + 1) (m, v) from by
          rw [Nat.add_comm, List.replicate_add]; rfl]
      rfl

/-- Manual-once steady state over the file loop. -/
theorem manualOnce_files_loop_set (cfg : Config) (human : Nat → Rat × Rat)
    (hm : cfg.thresh_method = ThreshMethod.manualOnceApplyAll) :
    ∀ (files : List FileMeta) (tr : List Event) (v m : Rat), v ≠ 0 →
      ∃ tr2 : List Event,
        files.foldl (runFile cfg human)
            (tr, some { thresh_value := v, min_thresh_value := some m }) =
          (tr2, some { thresh_value := v, min_thresh_value := some m }) ∧
        countPrompts tr2 = countPrompts tr ∧
        setThresholdEvents tr2 =
          setThresholdEvents tr ++ List.replicate (totalSeries files) (m, v) := by
  intro files
  induction files with
  | nil =>
    intro tr v m hv
    exact ⟨tr, rfl, rfl, by simp [totalSeries_nil]⟩
  | cons fm files ih =>
    intro tr v m hv
    rw [List.foldl_cons]
    rw [show runFile cfg human
        (tr, some { thresh_value := v, min_thresh_value := some m }) fm =
      (List.range
          (get_series_info_from_ome_metadata fm.series_count
            fm.resolutionCount).1).foldl
        (seriesStep cfg human fm.path
          (get_series_info_from_ome_metadata fm.series_count fm.resolutionCount).2)
        (tr, some { thresh_value := v, min_thresh_value := some m }) from rfl]
    obtain ⟨trF, heqF, hcpF, hsetF⟩ := manualOnce_series_loop_set cfg human fm.path
      (get_series_info_from_ome_metadata fm.series_count fm.resolutionCount).2 hm
      (List.range
        (get_series_info_from_ome_metadata fm.series_count fm.resolutionCount).1)
      tr v m hv
    rw [heqF]
    obtain ⟨tr2, heq, hcp2, hset2⟩ := ih trF v m hv
    refine ⟨tr2, heq, by rw [hcp2, hcpF], ?_⟩
    rw [hset2, hsetF, List.length_range,
      show (get_series_info_from_ome_metadata fm.series_count
        fm.resolutionCount).1 = fm.series_count from rfl,
      List.append_assoc, totalSeries_cons, List.replicate_add]

/-- Manual-once from the unset initial state over one series loop: an empty
loop changes nothing, otherwise the first series prompts (capturing the
dialog's pair number 0) and, when the captured max is nonzero, all later
series of the loop silently re-apply that pair. -/
theorem manualOnce_series_loop_unset (cfg : Config) (human : Nat → Rat × Rat)
    (path : String) (idx : List Int)
    (hm : cfg.thresh_method = ThreshMethod.manualOnceApplyAll)
    (hx : (human 0).2 ≠ 0) :
    ∀ (l : List Nat) (tr : List Event),
      countPrompts tr = 0 → setThresholdEvents tr = [] →
      ∃ (tr2 : List Event) (st2 : ThreshState),
        l.foldl (seriesStep cfg human path idx) (tr, some initState) =
          (tr2, some st2) ∧
        ((l = [] ∧ tr2 = tr ∧ st2 = initState) ∨
         (l ≠ [] ∧
          st2 = { thresh_value := (human 0).2,
                  min_thresh_value := some (human 0).1 } ∧
          countPrompts tr2 = 1 ∧
          setThresholdEvents tr2 =
            List.replicate l.length ((human 0).1, (human 0).2))) := by
  intro l
  cases l with
  | nil =>
    intro tr hcp0 hset0
    exact ⟨tr, initState, rfl, Or.inl ⟨rfl, rfl, rfl⟩⟩
  | cons s l =>
    intro tr hcp0 hset0
    rw [List.foldl_cons, seriesStep_some]
    obtain ⟨hst, hcp, hset⟩ := processSeries_manualOnce_unset_step cfg path
      (idx.getD s 0) human (countPrompts tr) initState hm rfl
    rw [hcp0] at hst hcp hset
    rw [hcp0, hst]
    obtain ⟨tr2, heq, hcp2, hset2⟩ := manualOnce_series_loop_set cfg human path
      idx hm l
      (tr ++ (processSeries cfg path (idx.getD s 0) human 0 initState).1)
      (human 0).2 (human 0).1 hx
    refine ⟨tr2, _, heq, Or.inr ⟨by simp, rfl, ?_, ?_⟩⟩
    · rw [hcp2, countPrompts_append, hcp0, hcp]
    · rw [hset2, setThresholdEvents_append, hset0, hset]
      rw [show (([] : List (Rat × Rat)) ++ [((human 0).1, (human 0).2)]) =
        List.replicate 1 ((human 0).1, (human 0).2) from rfl]
      rw [← List.replicate_add, Nat.add_comm]
      rfl

/-- Manual-once over a whole run from the initial state: either the run has
no series at all (and nothing happens to the threshold state), or the dialog
fires exactly once and every series applies the pair captured at that single
prompt. -/
theorem manualOnce_run (cfg : Config) (human : Nat → Rat × Rat)
    (hm : cfg.thresh_method = ThreshMethod.manualOnceApplyAll)
    (hx : (human 0).2 ≠ 0) :
    ∀ (files : List FileMeta) (tr : List Event),
      countPrompts tr = 0 → setThresholdEvents tr = [] →
      ∃ (tr2 : List Event) (st2 : ThreshState),
        files.foldl (runFile cfg human) (tr, some initState) = (tr2, some st2) ∧
        ((totalSeries files = 0 ∧ countPrompts tr2 = 0 ∧
          setThresholdEvents tr2 = [] ∧ st2 = initState) ∨
         (totalSeries files ≠ 0 ∧
          st2 = { thresh_value := (human 0).2,
                  min_thresh_value := some (human 0).1 } ∧
          countPrompts tr2 = 1 ∧
          setThresholdEvents tr2 =
            List.replicate (totalSeries files) ((human 0).1, (human 0).2))) := by
  intro files
  induction files with
  | nil =>
    intro tr hcp0 hset0
    exact ⟨tr, initState, rfl, Or.inl ⟨rfl, hcp0, hset0, rfl⟩⟩
  | cons fm files ih =>
    intro tr hcp0 hset0
    rw [List.foldl_cons]
    rw [show runFile cfg human (tr, some initState) fm =
      (List.range
          (get_series_info_from_ome_metadata fm.series_count
            fm.resolutionCount).1).foldl
        (seriesStep cfg human fm.path
          (get_series_info_from_ome_metadata fm.series_count fm.resolutionCount).2)
        (tr, some initState) from rfl]
    obtain ⟨trF, stF, heqF, hcaseF⟩ := manualOnce_series_loop_unset cfg human
      fm.path
      (get_series_info_from_ome_metadata fm.series_count fm.resolutionCount).2
      hm hx
      (List.range
        (get_series_info_from_ome_metadata fm.series_count fm.resolutionCount).1)
      tr hcp0 hset0
    rw [heqF]
    have hfst : (get_series_info_from_ome_metadata fm.series_count
        fm.resolutionCount).1 = fm.series_count := rfl
    rcases hcaseF with ⟨hl0, htr, hst⟩ | ⟨hlne, hst, hcpF, hsetF⟩
    · have hn0 : fm.series_count = 0 := by
        have h := List.range_eq_nil.mp hl0
        rw [hfst] at h
        exact h
      rw [htr, hst]
      obtain ⟨tr2, st2, heq, hcase⟩ := ih tr hcp0 hset0
      refine ⟨tr2, st2, heq, ?_⟩
      rcases hcase with ⟨ht0, h1, h2, h3⟩ | ⟨htne, h1, h2, h3⟩
      · exact Or.inl ⟨by rw [totalSeries_cons, hn0, ht0], h1, h2, h3⟩
      · refine Or.inr ⟨by rw [totalSeries_cons, hn0]; simpa using htne, h1, h2, ?_⟩
        rw [h3, totalSeries_cons, hn0, Nat.zero_add]
    · rw [hst]
      have hlen : (List.range
          (get_series_info_from_ome_metadata fm.series_count
            fm.resolutionCount).1).length = fm.series_count := by
        rw [List.length_range, hfst]
      obtain ⟨tr2, heq, hcp2, hset2⟩ := manualOnce_files_loop_set cfg human hm
        files trF (human 0).2 (human 0).1 hx
      refine ⟨tr2, _, heq, Or.inr ⟨?_, rfl, by rw [hcp2, hcpF], ?_⟩⟩
      · rw [totalSeries_cons]
        have hne : fm.series_count ≠ 0 := by
          intro hc
          apply hlne
          rw [hfst, hc]
          exact List.range_zero
        omega
      · rw [hset2, hsetF, hlen, totalSeries_cons, List.replicate_add]

/-- C1 (amended): in Manual-once mode, provided the pair captured at the first
prompt has a nonzero max threshold, the dialog fires exactly once over the
whole run — on the first series, which prompts when processed from the
initial state — and every series of the run (across all files) applies the
identical captured pair, which is also what the final state still holds. (Per
the counterexample, a captured max of exactly 0 makes the next series prompt
again, because "set" is encoded as `thresh_value != 0`.) -/
theorem C1_manual_once_amended (cfg : Config) (human : Nat → Rat × Rat)
    (files : List FileMeta)
    (hm : cfg.thresh_method = ThreshMethod.manualOnceApplyAll)
    (hx : (human 0).2 ≠ 0)
    (hn : 1 ≤ totalSeries files) :
    countPrompts (runScript cfg human files).1 = 1 ∧
    setThresholdEvents (runScript cfg human files).1 =
      List.replicate (totalSeries files) ((human 0).1, (human 0).2) ∧
    (runScript cfg human files).2 =
      some { thresh_value := (human 0).2, min_thresh_value := some (human 0).1 } ∧
    ∀ (f : String) (i : Int),
      countPrompts (processSeries cfg f i human 0 initState).1 = 1 := by
  obtain ⟨tr2, st2, heq, hcase⟩ := manualOnce_run cfg human hm hx files [] rfl rfl
  unfold runScript
  rw [heq]
  rcases hcase with ⟨h0, _, _, _⟩ | ⟨hne, hst, hcp, hset⟩
  · omega
  · refine ⟨hcp, hset, by rw [hst], ?_⟩
    intro f i
    exact (processSeries_manualOnce_unset_step cfg f i human 0 initState hm
      rfl).2.1

/-- C1 witness: the manual-once run over the two-series sample file with a
captured pair `(1, 2)` prompts once and applies `(1, 2)` to both series. -/
theorem C1_witness :
    countPrompts (runScript cfgOnce humanConst [fmSample]).1 = 1 ∧
    setThresholdEvents (runScript cfgOnce humanConst [fmSample]).1 =
      List.replicate (totalSeries [fmSample]) ((humanConst 0).1, (humanConst 0).2) ∧
    (runScript cfgOnce humanConst [fmSample]).2 =
      some { thresh_value := (humanConst 0).2,
             min_thresh_value := some (humanConst 0).1 } ∧
    ∀ (f : String) (i : Int),
      countPrompts (processSeries cfgOnce f i humanConst 0 initState).1 = 1 :=
  C1_manual_once_amended cfgOnce humanConst [fmSample] rfl (by decide) (by decide)

/-- C1 counterexample: the claim says the prompt fires exactly once on every
manual-once run; but when the human confirms a pair whose max threshold is 0,
the two-series run prompts twice — the claim as stated is false. -/
theorem C1_counterexample :
    countPrompts (runScript cfgOnce humanZero [fmSample]).1 = 2 ∧
    ¬ countPrompts (runScript cfgOnce humanZero [fmSample]).1 = 1 := by
  decide

/-- C10: in Manual-once mode, a series processed with the threshold unset
prompts; if the captured max threshold is exactly 0, the resulting state has
`thresh_value = 0` again — the Set state is not retained, because "a value is
set" is encoded as the captured max being nonzero — so processing any next
series from that state fires the prompt again. -/
theorem C10_zero_max_reprompts (cfg : Config) (f f2 : String) (i i2 : Int)
    (human : Nat → Rat × Rat) (p p2 : Nat) (st : ThreshState)
    (hm : cfg.thresh_method = ThreshMethod.manualOnceApplyAll)
    (h0 : st.thresh_value = 0)
    (hz : (human p).2 = 0) :
    (processSeries cfg f i human p st).2 =
      some { thresh_value := 0, min_thresh_value := some (human p).1 } ∧
    countPrompts (processSeries cfg f i human p st).1 = 1 ∧
    countPrompts (processSeries cfg f2 i2 human p2
      { thresh_value := 0, min_thresh_value := some (human p).1 }).1 = 1 := by
  obtain ⟨hst, hcp, _⟩ :=
    processSeries_manualOnce_unset_step cfg f i human p st hm h0
  refine ⟨?_, hcp, ?_⟩
  · rw [hst, hz]
  · exact (processSeries_manualOnce_unset_step cfg f2 i2 human p2
      { thresh_value := 0, min_thresh_value := some (human p).1 } hm rfl).2.1

/-- C10 witness: with a confirmed pair `(0, 0)`, the first sample series
leaves the state unset and the second series prompts again. -/
theorem C10_witness :
    (processSeries cfgOnce "/data/sample.nd2" 0 humanZero 0 initState).2 =
      some { thresh_value := 0, min_thresh_value := some (humanZero 0).1 } ∧
    countPrompts (processSeries cfgOnce "/data/sample.nd2" 0 humanZero 0
      initState).1 = 1 ∧
    countPrompts (processSeries cfgOnce "/data/sample.nd2" 1 humanZero 1
      { thresh_value := 0, min_thresh_value := some (humanZero 0).1 }).1 = 1 :=
  C10_zero_max_reprompts cfgOnce "/data/sample.nd2" "/data/sample.nd2" 0 1
    humanZero 0 1 initState rfl rfl (by decide)

theorem series_index_fold_succ (rc : Nat → Int) (k : Nat) :
    series_index_fold rc (k + 1) =
      (if k = 0 then ((0 : Int), (series_index_fold rc k).2 ++ [(0 : Int)])
       else ((series_index_fold rc k).1 + rc (k - 1),
             (series_index_fold rc k).2 ++
               [(series_index_fold rc k).1 + rc (k - 1)])) := by
  unfold series_index_fold
  rw [List.range_succ, List.foldl_append, List.foldl_cons, List.foldl_nil]

/-- The loop of lines 146-154 computes, for each `i < n`, the cumulative sum
of the resolution counts of all series before `i`. -/
theorem series_index_fold_eq (rc : Nat → Int) :
    ∀ n : Nat, series_index_fold rc n =
      ((Finset.range (n - 1)).sum rc,
       (List.range n).map (fun i => (Finset.range i).sum rc)) := by
  intro n
  induction n with
  | zero => simp [series_index_fold]
  | succ k ih =>
    rw [series_index_fold_succ, ih]
    by_cases hk : k = 0
    · subst hk
      simp [List.range_succ]
    · rw [if_neg hk]
      obtain ⟨j, hj⟩ : ∃ j, k = j + 1 := ⟨k - 1, by omega⟩
      subst hj
      simp only [Nat.add_sub_cancel]
      simp [List.range_succ, Finset.sum_range_succ]

/-- C5: for a file whose metadata reports `seriesCount = N`, the Series
Inspector returns `N` together with exactly `N` absolute series indices:
index 0 is `0`, index `i` is the cumulative sum of the resolution counts of
all prior series, and the whole table is non-decreasing whenever every
resolution count is non-negative. -/
theorem C5_series_inspector_indices (rc : Nat → Int) (N : Nat) :
    (get_series_info_from_ome_metadata N rc).1 = N ∧
    (get_series_info_from_ome_metadata N rc).2.length = N ∧
    (0 < N → (get_series_info_from_ome_metadata N rc).2[0]? = some 0) ∧
    (∀ i : Nat, i < N →
      (get_series_info_from_ome_metadata N rc).2[i]? =
        some ((Finset.range i).sum rc)) ∧
    ((∀ j : Nat, 0 ≤ rc j) →
      List.Sorted (· ≤ ·) (get_series_info_from_ome_metadata N rc).2) := by
  have h2 : (get_series_info_from_ome_metadata N rc).2 =
      (List.range N).map (fun i => (Finset.range i).sum rc) := by
    unfold get_series_info_from_ome_metadata
    rw [series_index_fold_eq]
  refine ⟨rfl, ?_, ?_, ?_, ?_⟩
  · rw [h2]; simp
  · intro hN
    rw [h2, List.getElem?_map, List.getElem?_range hN]
    simp
  · intro i hi
    rw [h2, List.getElem?_map, List.getElem?_range hi]
    rfl
  · intro hrc
    rw [h2]
    apply List.pairwise_map.mpr
    apply (List.pairwise_lt_range N).imp
    intro a b hab
    exact Finset.sum_le_sum_of_subset_of_nonneg
      (Finset.range_subset.mpr (Nat.le_of_lt hab))
      (fun j _ _ => hrc j)

/-- C5 witness: on a file with 3 series of one resolution level each, the
third absolute index equals the sum of the two prior resolution counts and
the table is non-decreasing. -/
theorem C5_witness :
    (get_series_info_from_ome_metadata 3 (fun _ => (1 : Int))).2[2]? =
      some ((Finset.range 2).sum (fun _ => (1 : Int))) ∧
    List.Sorted (· ≤ ·)
      (get_series_info_from_ome_metadata 3 (fun _ => (1 : Int))).2 := by
  have h := C5_series_inspector_indices (fun _ => (1 : Int)) 3
  exact ⟨h.2.2.2.1 2 (by omega), h.2.2.2.2 (fun j => by norm_num)⟩

/-!
### C8: the glob matcher on literal suffix patterns, and walk completeness
-/

theorem tokMatch_lit (p : List Char) :
    ∀ s : List Char, tokMatch (p.map GlobTok.lit) s = true ↔ s = p := by
  induction p with
  | nil =>
    intro s
    simp [tokMatch, List.isEmpty_iff]
  | cons c ps ih =>
    intro s
    cases s with
    | nil => simp [tokMatch]
    | cons c2 s2 => simp [tokMatch, ih s2]

theorem tokMatch_star (ts : List GlobTok) (s : List Char) :
    tokMatch (GlobTok.star :: ts) s = true ↔
      ∃ t, t <:+ s ∧ tokMatch ts t = true := by
  simp [tokMatch, List.any_eq_true, List.mem_tails]

theorem tokenize_cons_star (ps : List Char) :
    tokenize ('*' :: ps) = GlobTok.star :: tokenize ps := rfl

theorem tokenize_cons_lit (c : Char) (ps : List Char)
    (h1 : c ≠ '*') (h2 : c ≠ '?') (h3 : c ≠ '[') :
    tokenize (c :: ps) = GlobTok.lit c :: tokenize ps := by
  simp [tokenize, tokenizeFuel, h1, h2, h3]

/-- A pattern free of the glob metacharacters compiles to literal tokens. -/
theorem tokenize_literal (p : List Char)
    (hp : ∀ c ∈ p, c ≠ '*' ∧ c ≠ '?' ∧ c ≠ '[') :
    tokenize p = p.map GlobTok.lit := by
  induction p with
  | nil => rfl
  | cons c ps ih =>
    obtain ⟨h1, h2, h3⟩ := hp c (List.mem_cons_self c ps)
    rw [tokenize_cons_lit c ps h1 h2 h3,
      ih (fun x hx => hp x (List.mem_cons_of_mem c hx)), List.map_cons]

/-- For a suffix string free of glob metacharacters, matching the pattern
`"*" + suffix` is exactly "the name ends with the suffix". -/
theorem fnmatch_star_literal (filt : String)
    (hp : ∀ c ∈ filt.data, c ≠ '*' ∧ c ≠ '?' ∧ c ≠ '[') (f : String) :
    fnmatch f ("*" ++ filt) = true ↔ filt.data <:+ f.data := by
  have hdata : ("*" ++ filt).data = '*' :: filt.data := by
    rw [String.data_append]; rfl
  unfold fnmatch
  rw [hdata, tokenize_cons_star, tokenize_literal filt.data hp, tokMatch_star]
  constructor
  · rintro ⟨t, hts, hm⟩
    rw [tokMatch_lit filt.data t] at hm
    rw [← hm]
    exact hts
  · intro h
    exact ⟨filt.data, h, (tokMatch_lit filt.data filt.data).mpr rfl⟩

theorem mem_getFileList (p root filt : String) (tree : FSTree) :
    p ∈ getFileList root tree filt ↔
      ∃ d fs f, (d, fs) ∈ walk root tree ∧ f ∈ fs ∧
        fnmatch f ("*" ++ filt) = true ∧ p = os_path_join d f := by
  unfold getFileList fnmatch_filter
  constructor
  · intro hp
    obtain ⟨dp, hdp, hp2⟩ := List.mem_flatMap.mp hp
    obtain ⟨f, hf, hpe⟩ := List.mem_map.mp hp2
    obtain ⟨hfm, hmm⟩ := List.mem_filter.mp hf
    exact ⟨dp.1, dp.2, f, hdp, hfm, hmm, hpe.symm⟩
  · rintro ⟨d, fs, f, hdp, hf, hm, hpe⟩
    refine List.mem_flatMap.mpr ⟨(d, fs), hdp, ?_⟩
    exact List.mem_map.mpr ⟨f, List.mem_filter.mpr ⟨hf, hm⟩, hpe.symm⟩

theorem mem_walkForest (forest : FSForest) (root n : String) (t1 : FSTree)
    (x : String × List String)
    (hmem : (n, t1) ∈ forest.toList)
    (hx : x ∈ walk (os_path_join root n) t1) :
    x ∈ walkForest root forest :=
  match forest, hmem with
  | FSForest.cons n' t' r, hmem => by
    rw [FSForest.toList] at hmem
    rcases List.mem_cons.mp hmem with heq | htl
    · injection heq with h1 h2
      subst h1; subst h2
      rw [walkForest]
      exact List.mem_append_left _ hx
    · rw [walkForest]
      exact List.mem_append_right _ (mem_walkForest r root n t1 x htl hx)

theorem joinAll_cons (root n : String) (names : List String) :
    joinAll root (n :: names) = joinAll (os_path_join root n) names := rfl

theorem walk_head (root : String) (t : FSTree) :
    (root, t.files) ∈ walk root t := by
  cases t with
  | node fs forest =>
    rw [walk, FSTree.files]
    exact List.mem_cons_self _ _

/-- Walk completeness: every directory reachable by descending named
subdirectories is visited by `os.walk`, under its joined path. -/
theorem walk_of_dirPath (tree sub : FSTree) (names : List String)
    (root : String) (h : DirPath tree names sub) :
    (joinAll root names, sub.files) ∈ walk root tree := by
  induction h generalizing root with
  | refl t => exact walk_head root t
  | step hmem hpath ih =>
    rw [FSTree.subdirs] at hmem
    rw [joinAll_cons, walk]
    apply List.mem_cons_of_mem
    exact mem_walkForest _ root _ _ _ hmem (ih (os_path_join root _))

theorem sorted_script_file_order (root : String) (tree : FSTree)
    (filt : String) :
    List.Sorted (· ≤ ·) (script_file_order root tree filt) :=
  List.sorted_mergeSort' _

theorem mem_script_file_order (x root filt : String) (tree : FSTree) :
    x ∈ script_file_order root tree filt ↔ x ∈ getFileList root tree filt := by
  unfold script_file_order sorted_files
  exact List.mem_mergeSort

/-- C8 (amended): for every input directory tree and every suffix string free
of the fnmatch metacharacters `*`, `?`, `[`, the enumerator-plus-sort
pipeline (a) returns only paths built by joining a walked directory with a
file name that ends with the suffix, (b) reaches files at any recursion
depth — every file with a matching name in any reachable subdirectory is in
the processed list — and (c) the processing order fixed before the main loop
is lexicographically sorted. (Per the counterexample, a suffix containing a
metacharacter is interpreted as a glob pattern, not as a literal ends-with
test, so the claim as stated fails for such suffixes.) -/
theorem C8_enumerator_amended (root : String) (tree : FSTree) (filt : String)
    (hp : ∀ c ∈ filt.data, c ≠ '*' ∧ c ≠ '?' ∧ c ≠ '[') :
    (∀ p ∈ script_file_order root tree filt,
      ∃ d fs f, (d, fs) ∈ walk root tree ∧ f ∈ fs ∧
        filt.data <:+ f.data ∧ p = os_path_join d f) ∧
    (∀ (names : List String) (sub : FSTree) (f : String),
      DirPath tree names sub → f ∈ sub.files → filt.data <:+ f.data →
      os_path_join (joinAll root names) f ∈ script_file_order root tree filt) ∧
    List.Sorted (· ≤ ·) (script_file_order root tree filt) := by
  refine ⟨?_, ?_, sorted_script_file_order root tree filt⟩
  · intro p hp2
    rw [mem_script_file_order, mem_getFileList] at hp2
    obtain ⟨d, fs, f, hdp, hf, hm, hpe⟩ := hp2
    exact ⟨d, fs, f, hdp, hf, (fnmatch_star_literal filt hp f).mp hm, hpe⟩
  · intro names sub f hpath hf hsuf
    rw [mem_script_file_order, mem_getFileList]
    exact ⟨joinAll root names, sub.files, f,
      walk_of_dirPath tree sub names root hpath, hf,
      (fnmatch_star_literal filt hp f).mpr hsuf, rfl⟩

/-- C8 witness: with the literal suffix `nd2` over the nested sample tree,
the processing order is sorted and the file `b.nd2` one level down is
reached. -/
theorem C8_witness :
    List.Sorted (· ≤ ·) (script_file_order "/in" sampleTree "nd2") ∧
    os_path_join (joinAll "/in" ["sub"]) "b.nd2" ∈
      script_file_order "/in" sampleTree "nd2" := by
  have h := C8_enumerator_amended "/in" sampleTree "nd2" (by decide)
  refine ⟨h.2.2, ?_⟩
  refine h.2.1 ["sub"] (FSTree.node ["b.nd2"] FSForest.nil) "b.nd2"
    ?_ (by decide) (by decide)
  exact DirPath.step (List.mem_singleton.mpr rfl) (DirPath.refl _)

/-- C8 counterexample: the claim quantifies over every suffix string; with
the suffix `?d2` the enumerator returns the path of a file named `xd2`,
whose name does not end with the literal suffix — fnmatch treats `?` as a
metacharacter. -/
theorem C8_counterexample :
    getFileList "/in" treeQ "?d2" = ["/in/xd2"] ∧
    ¬ ("?d2".data <:+ "xd2".data) := by
  decide
